import Mathlib

/-!
Verification of the octopush core: remote-URL codec, project resolution,
profile store, and the reconciliation engine, shallowly embedded from the
Rust sources (`src/util/git.rs`, `src/core/*.rs`).

Rust strings are modelled as `List Char`; filesystem paths as lists of
path components (`List (List Char)`).  Fallible subprocess calls are
modelled by an explicit environment of failure flags, and repository
configuration by an explicit record threaded through the engine.
-/

/-- Rust `str::starts_with pat`: does `s` begin with `pat`? -/
def hasPfx : List Char → List Char → Bool
  | [], _ => true
  | _ :: _, [] => false
  | p :: ps, c :: cs => if p = c then hasPfx ps cs else false

/-- Rust `str::strip_prefix pat`: drop `pat` from the front of `s`
when present, yielding the remainder. -/
def dropPfx? : List Char → List Char → Option (List Char)
  | [], s => some s
  | _ :: _, [] => none
  | p :: ps, c :: cs => if c = p then dropPfx? ps cs else none

/-- Rust `str::splitn(2, sep)` followed by two `next()?` calls: split at
the first occurrence of `sep`, failing when `sep` does not occur. -/
def splitFirst (sep : Char) : List Char → Option (List Char × List Char)
  | [] => none
  | c :: cs =>
    if c = sep then some ([], cs)
    else
      match splitFirst sep cs with
      | some (a, b) => some (c :: a, b)
      | none => none

/-- Rust `str::trim_matches('/')`: remove leading and trailing slashes. -/
def trimSlashes (s : List Char) : List Char :=
  (((s.dropWhile (fun c => decide (c = '/'))).reverse.dropWhile
      (fun c => decide (c = '/'))).reverse)

/-- The literal `".git"`, both as the trailing repository suffix and as the
version-control marker directory name. -/
def dotgit : List Char := ['.', 'g', 'i', 't']

/-- Does `s` end with `pat`? (Rust `str::ends_with`.) -/
def endsWith (pat s : List Char) : Bool := hasPfx pat.reverse s.reverse

/-- Fuel-indexed worker for `trimEndDotGit`; the fuel is always sufficient
because each step removes four characters. -/
def trimEndDotGitFuel : Nat → List Char → List Char
  | 0, s => s
  | n + 1, s =>
    if endsWith dotgit s then trimEndDotGitFuel n (s.take (s.length - 4)) else s

/-- Rust `str::trim_end_matches(".git")`: repeatedly strip a trailing
`".git"` suffix. -/
def trimEndDotGit (s : List Char) : List Char := trimEndDotGitFuel s.length s

/-- The literal `"git@"`. -/
def gitAtPfx : List Char := ['g', 'i', 't', '@']

/-- The literal `"ssh://"`. -/
def sshPfx : List Char := ['s', 's', 'h', ':', '/', '/']

/-- The literal `"https://"`. -/
def httpsPfx : List Char := ['h', 't', 't', 'p', 's', ':', '/', '/']

/-- Rust `rest.split('@').last().unwrap_or(rest)`: the segment after the
last `'@'`, or the whole string when there is none. -/
def afterLastAt (s : List Char) : List Char :=
  (s.reverse.takeWhile (fun c => !decide (c = '@'))).reverse

/-- `split_path` from `src/util/git.rs`: trim slashes around the path,
split it at the first `'/'` into owner and repo, and strip a trailing
`".git"` from the repo segment. -/
def split_path (host path : List Char) :
    Option (List Char × List Char × List Char) :=
  match splitFirst '/' (trimSlashes path) with
  | some (owner, rest) => some (host, owner, trimEndDotGit rest)
  | none => none

/-- `parse_remote` from `src/util/git.rs`: recognize the SSH-shorthand,
`ssh://`, and `https://` remote-URL shapes. -/
def parse_remote (url : List Char) :
    Option (List Char × List Char × List Char) :=
  match dropPfx? gitAtPfx url with
  | some rest =>
    match splitFirst ':' rest with
    | some (host, path) => split_path host path
    | none => none
  | none =>
    match dropPfx? sshPfx url with
    | some rest =>
      match splitFirst '/' (afterLastAt rest) with
      | some (host, path) => split_path host path
      | none => none
    | none =>
      match dropPfx? httpsPfx url with
      | some rest =>
        match splitFirst '/' rest with
        | some (host, path) => split_path host path
        | none => none
      | none => none

/-- `to_ssh` from `src/util/git.rs`: `format!("git@{}:{}/{}.git", ...)`. -/
def to_ssh (host owner repo : List Char) : List Char :=
  gitAtPfx ++ host ++ [':'] ++ owner ++ ['/'] ++ repo ++ dotgit

/-- `to_https` from `src/util/git.rs`: `format!("https://{}/{}/{}.git", ...)`. -/
def to_https (host owner repo : List Char) : List Char :=
  httpsPfx ++ host ++ ['/'] ++ owner ++ ['/'] ++ repo ++ dotgit

/-- The error kinds used by the program (`std::io::ErrorKind` values that
actually occur in the sources). -/
inductive ErrKind where
  | notFound
  | alreadyExists
  | invalidData
  | invalidInput
  | other
deriving DecidableEq

/-- An abstract filesystem: which component paths are directories and
which are files.  Paths are absolute, as lists of components. -/
structure FS where
  isDir : List (List Char) → Bool
  isFile : List (List Char) → Bool

/-- Rust `Path::exists`: a path exists when it is a directory or a file. -/
def fsExists (fs : FS) (p : List (List Char)) : Bool :=
  fs.isDir p || fs.isFile p

/-- The starting directory of the walk in `resolve_git_repo_name`
(`src/core/project.rs`): the path itself, or its parent when it is
a file. -/
def startDir (fs : FS) (start : List (List Char)) : List (List Char) :=
  if fs.isFile start then start.dropLast else start

/-- Fuel-indexed worker for the upward walk of `resolve_git_repo_name`:
test for the `.git` marker directory, and otherwise pop the last component
until the root. -/
def resolveFuel (fs : FS) : Nat → List (List Char) → Option (List Char)
  | 0, _ => none
  | n + 1, cur =>
    if fs.isDir (cur ++ [dotgit]) then cur.getLast?
    else
      match cur with
      | [] => none
      | _ :: _ => resolveFuel fs n cur.dropLast

/-- `resolve_git_repo_name` from `src/core/project.rs`: walk upward from
the start directory looking for a `.git` marker; the fuel `length + 1`
covers every ancestor down to the root. -/
def resolve_git_repo_name (fs : FS) (start : List (List Char)) :
    Option (List Char) :=
  resolveFuel fs ((startDir fs start).length + 1) (startDir fs start)

/-- `Project::get_repo_name` from `src/core/project.rs`: resolution
failure becomes an error of kind `Other` ("no git repository found for
given project path"). -/
def get_repo_name (fs : FS) (start : List (List Char)) :
    Except ErrKind (List Char) :=
  match resolve_git_repo_name fs start with
  | some name => .ok name
  | none => .error .other

/-- A filesystem with no directories at all. -/
def fsNone : FS := { isDir := fun _ => false, isFile := fun _ => false }

/-- A filesystem whose only directory is the marker `p/q/.git`. -/
def fsC6 : FS :=
  { isDir := fun p => decide (p = [['p'], ['q'], ['.', 'g', 'i', 't']])
    isFile := fun _ => false }

/-- ASCII whitespace recognized by the model of Rust `str::trim`. -/
def isWhitespaceCh (c : Char) : Bool :=
  decide (c = ' ') || decide (c = '\t') || decide (c = '\n') || decide (c = '\r')

/-- Model of Rust `str::trim`: drop whitespace at both ends. -/
def rustTrim (s : List Char) : List Char :=
  ((s.dropWhile isWhitespaceCh).reverse.dropWhile isWhitespaceCh).reverse

/-- Model of Rust `str::to_lowercase` (ASCII letters). -/
def lowerStr (s : List Char) : List Char := s.map Char.toLower

/-- `AuthType` from `src/core/auth.rs`: the three authentication modes. -/
inductive AuthType where
  | none
  | SSH
  | GH
deriving DecidableEq

/-- `AuthType::from_str` from `src/core/auth.rs`: trim and lowercase the
input, accept exactly `none`, `ssh`, `gh`, and otherwise fail with an
error of kind `InvalidInput` ("invalid auth type"). -/
def auth_type_from_str (s : List Char) : Except ErrKind AuthType :=
  let t := lowerStr (rustTrim s)
  if t = ['n', 'o', 'n', 'e'] then .ok AuthType.none
  else if t = ['s', 's', 'h'] then .ok AuthType.SSH
  else if t = ['g', 'h'] then .ok AuthType.GH
  else .error .invalidInput

/-- `Profile` from `src/core/profile.rs`. -/
structure Profile where
  id : List Char
  name : List Char
  email : List Char
  auth_type : AuthType
  hostname : Option (List Char)
  ssh_key_path : Option (List Char)
deriving DecidableEq

/-- Association-list lookup keyed by strings, modelling `HashMap::get`. -/
def lookupK {α : Type} (k : List Char) : List (List Char × α) → Option α
  | [] => Option.none
  | (k', v) :: rest => if k' = k then some v else lookupK k rest

/-- Association-list insert keyed by strings, modelling `HashMap::insert`
(replaces an existing binding). -/
def insertK {α : Type} (k : List Char) (v : α) :
    List (List Char × α) → List (List Char × α)
  | [] => [(k, v)]
  | (k', v') :: rest =>
    if k' = k then (k, v) :: rest else (k', v') :: insertK k v rest

/-- `add_profile` from `src/core/app.rs`: reject an existing id with
`AlreadyExists`, otherwise insert and persist the new map. -/
def add_profile (profile_name : List Char) (profile : Profile)
    (profiles : List (List Char × Profile)) :
    Except ErrKind (List (List Char × Profile)) :=
  match lookupK profile_name profiles with
  | some _ => .error .alreadyExists
  | Option.none => .ok (insertK profile_name profile profiles)

/-- `update_profile` from `src/core/app.rs`: missing id fails `NotFound`;
otherwise the stored profile's auth mode forbids certain incoming fields
(`InvalidData`), and an allowed update replaces the entry. -/
def update_profile (profile_name : List Char) (profile : Profile)
    (profiles : List (List Char × Profile)) :
    Except ErrKind (List (List Char × Profile)) :=
  match lookupK profile_name profiles with
  | some p =>
    match p.auth_type with
    | AuthType.none =>
      if profile.hostname.isSome || profile.ssh_key_path.isSome then
        .error .invalidData
      else .ok (insertK profile_name profile profiles)
    | AuthType.SSH =>
      if profile.hostname.isSome then .error .invalidData
      else .ok (insertK profile_name profile profiles)
    | AuthType.GH =>
      if profile.ssh_key_path.isSome then .error .invalidData
      else .ok (insertK profile_name profile profiles)
  | Option.none => .error .notFound

/-- The field-presence restriction of `update_profile`, stated as in the
specification: the currently stored auth mode forbids these incoming
fields. -/
def disallowedFor (stored : AuthType) (incoming : Profile) : Bool :=
  match stored with
  | AuthType.none => incoming.hostname.isSome || incoming.ssh_key_path.isSome
  | AuthType.SSH => incoming.hostname.isSome
  | AuthType.GH => incoming.ssh_key_path.isSome

/-- A stored SSH profile used in store witnesses. -/
def profStoredSSH : Profile :=
  ⟨['p'], ['m'], ['f'], AuthType.SSH, Option.none, some ['k']⟩

/-- An incoming update that wrongly sets `hostname` for an SSH profile. -/
def profUpdBadHost : Profile :=
  ⟨['p'], ['n'], ['e'], AuthType.SSH, some ['h'], Option.none⟩

/-- A GH profile used in store witnesses. -/
def profGH : Profile :=
  ⟨['p', '1'], ['n'], ['e'], AuthType.GH, some ['h'], Option.none⟩

/-- Local git configuration of the target repository, as read and written
through the collaborator in `src/util/git.rs`. -/
structure RepoState where
  user_name : Option (List Char)
  user_email : Option (List Char)
  remote_origin : Option (List Char)
  ssh_command : Option (List Char)
  cred_helper : Option (List Char)
  use_http_path : Option (List Char)
deriving DecidableEq

/-- Failure injection for the fallible git subprocess calls; the `unset`
calls in `src/util/git.rs` ignore their outcome and so have no flag. -/
structure GitEnv where
  set_name_fails : Bool
  set_email_fails : Bool
  get_remote_fails : Bool
  ensure_ssh_fails : Bool
  set_remote_fails : Bool
  set_cred_helper_fails : Bool
  use_http_io_fails : Bool
  use_http_status_ok : Bool
deriving DecidableEq

/-- The value written by `ensure_ssh_command`:
`format!("ssh -i {} -F /dev/null", key_path)`. -/
def ssh_command_value (key_path : List Char) : List Char :=
  "ssh -i ".toList ++ key_path ++ " -F /dev/null".toList

/-- The credential helper value written by `set_gh_credential_helper`. -/
def gh_helper_value : List Char := "!gh auth git-credential".toList

/-- The remote-rewrite step of the SSH branch of `apply_profile_to_repo`:
an HTTPS remote that parses is rewritten to SSH shorthand. -/
def ssh_remote_step (env : GitEnv) (remote : Option (List Char))
    (s : RepoState) : RepoState × Option ErrKind :=
  match remote with
  | some url =>
    match parse_remote url with
    | some (host, owner, repo_name) =>
      if hasPfx httpsPfx url then
        if env.set_remote_fails then (s, some .other)
        else ({ s with remote_origin := some (to_ssh host owner repo_name) },
              Option.none)
      else (s, Option.none)
    | Option.none => (s, Option.none)
  | Option.none => (s, Option.none)

/-- The tail of the SSH branch after the key step: rewrite the remote,
then clear the credential-helper keys (infallible unsets). -/
def ssh_after_key (env : GitEnv) (remote : Option (List Char))
    (s : RepoState) : RepoState × Option ErrKind :=
  match ssh_remote_step env remote s with
  | (s1, some e) => (s1, some e)
  | (s1, Option.none) =>
    ({ s1 with cred_helper := Option.none, use_http_path := Option.none },
     Option.none)

/-- The SSH branch of `apply_profile_to_repo` (`src/core/app.rs`). -/
def apply_ssh (env : GitEnv) (p : Profile) (remote : Option (List Char))
    (s : RepoState) : RepoState × Option ErrKind :=
  match p.ssh_key_path with
  | some key =>
    if env.ensure_ssh_fails then (s, some .other)
    else ssh_after_key env remote
      { s with ssh_command := some (ssh_command_value key) }
  | Option.none => ssh_after_key env remote s

/-- The remote-rewrite step of the GH branch of `apply_profile_to_repo`:
a parsing `git@`/`ssh://` remote is rewritten to HTTPS; the
`is_gh_authenticated` probe is a pure diagnostic with no state effect. -/
def gh_remote_step (env : GitEnv) (remote : Option (List Char))
    (s : RepoState) : RepoState × Option ErrKind :=
  match remote with
  | some url =>
    match parse_remote url with
    | some (host, owner, repo_name) =>
      if hasPfx gitAtPfx url || hasPfx sshPfx url then
        if env.set_remote_fails then (s, some .other)
        else ({ s with remote_origin := some (to_https host owner repo_name) },
              Option.none)
      else (s, Option.none)
    | Option.none => (s, Option.none)
  | Option.none => (s, Option.none)

/-- The GH branch of `apply_profile_to_repo` (`src/core/app.rs`): rewrite
the remote, set the credential helper and the per-path flag, then clear
the SSH-command override. -/
def apply_gh (env : GitEnv) (remote : Option (List Char)) (s : RepoState) :
    RepoState × Option ErrKind :=
  match gh_remote_step env remote s with
  | (s1, some e) => (s1, some e)
  | (s1, Option.none) =>
    if env.set_cred_helper_fails then (s1, some .other)
    else
      let s2 := { s1 with cred_helper := some gh_helper_value }
      if env.use_http_io_fails then (s2, some .other)
      else
        let s3 := if env.use_http_status_ok
          then { s2 with use_http_path := some ['t', 'r', 'u', 'e'] } else s2
        ({ s3 with ssh_command := Option.none }, Option.none)

/-- `apply_profile_to_repo` from `src/core/app.rs`: ensure the path is a
repository, write the identity, read the remote, then take the branch of
the target profile's auth mode.  The returned state records every write
performed before a failure, which the Rust code does not roll back. -/
def apply_profile_to_repo (fs : FS) (env : GitEnv) (p : Profile)
    (path : List (List Char)) (s : RepoState) : RepoState × Option ErrKind :=
  if fs.isDir (path ++ [dotgit]) then
    if env.set_name_fails then (s, some .other)
    else
      let s1 := { s with user_name := some p.name }
      if env.set_email_fails then (s1, some .other)
      else
        let s2 := { s1 with user_email := some p.email }
        if env.get_remote_fails then (s2, some .other)
        else
          match p.auth_type with
          | AuthType.SSH => apply_ssh env p s2.remote_origin s2
          | AuthType.GH => apply_gh env s2.remote_origin s2
          | AuthType.none =>
            ({ { s2 with ssh_command := Option.none } with
                cred_helper := Option.none, use_http_path := Option.none },
             Option.none)
  else (s, some .invalidInput)

/-- A filesystem holding one repository `w` with its `.git` marker. -/
def fsProj : FS :=
  { isDir := fun q =>
      decide (q = [['w']] ∨ q = [['w'], ['.', 'g', 'i', 't']])
    isFile := fun _ => false }

/-- An environment where every subprocess call succeeds. -/
def envOk : GitEnv :=
  ⟨false, false, false, false, false, false, false, true⟩

/-- An environment where only reading the remote URL fails. -/
def envRemoteFail : GitEnv :=
  ⟨false, false, true, false, false, false, false, true⟩

/-- An environment where the very first write (user.name) fails. -/
def envNameFail : GitEnv :=
  ⟨true, false, false, false, false, false, false, true⟩

/-- A repository state with nothing configured. -/
def repo0 : RepoState :=
  ⟨Option.none, Option.none, Option.none, Option.none, Option.none,
   Option.none⟩

/-- A repository state with an HTTPS origin and a credential helper set. -/
def repoHttps : RepoState :=
  ⟨Option.none, Option.none, some "https://github.com/acme/app.git".toList,
   Option.none, some gh_helper_value, some ['t', 'r', 'u', 'e']⟩

/-- An SSH profile carrying a key path. -/
def profSSHKey : Profile :=
  ⟨['s'], "Ada".toList, "ada@acme.io".toList, AuthType.SSH, Option.none,
   some "~/.ssh/id_rsa".toList⟩

/-- A profile with auth mode `None`. -/
def profNone : Profile :=
  ⟨['z'], "Zoe".toList, "zoe@acme.io".toList, AuthType.none, Option.none,
   Option.none⟩

/-- The whole-application state: the two persisted documents and the
target repository's local configuration. -/
structure AppState where
  profiles : List (List Char × Profile)
  project_profiles : List (List Char × List Char)
  repo : RepoState
deriving DecidableEq

/-- `Project::new` existence check (`src/core/project.rs`): a missing
path is `InvalidInput` ("invalid path"). -/
def project_new_ok (fs : FS) (path : List (List Char)) : Bool :=
  fsExists fs path

/-- `App::use_profile` from `src/core/app.rs`: look the profile up, check
the project path, resolve the repository name, record the binding in the
project mapping, and only then apply the profile to the repository. -/
def use_profile (fs : FS) (env : GitEnv) (profile_name : List Char)
    (path : List (List Char)) (st : AppState) : AppState × Option ErrKind :=
  match lookupK profile_name st.profiles with
  | Option.none => (st, some .notFound)
  | some profile =>
    if project_new_ok fs path then
      match get_repo_name fs path with
      | .error k => (st, some k)
      | .ok repo_name =>
        let map' := insertK repo_name profile_name st.project_profiles
        let res := apply_profile_to_repo fs env profile path st.repo
        ({ st with project_profiles := map', repo := res.1 }, res.2)
    else (st, some .invalidInput)

/-- `read_project_profile` from `src/core/app.rs`: follow the project
binding into the profiles document; a dangling or absent binding yields
nothing. -/
def read_project_profile (repo_name : List Char) (st : AppState) :
    Option Profile :=
  match lookupK repo_name st.project_profiles with
  | some profile_name => lookupK profile_name st.profiles
  | Option.none => Option.none

/-- `App::get_project_profile` from `src/core/app.rs`: resolve the
project, follow the binding, and fail `NotFound` when no profile comes
back. -/
def get_project_profile (fs : FS) (path : List (List Char))
    (st : AppState) : Except ErrKind (Profile × List Char) :=
  if project_new_ok fs path then
    match get_repo_name fs path with
    | .error k => .error k
    | .ok repo_name =>
      match read_project_profile repo_name st with
      | some profile => .ok (profile, repo_name)
      | Option.none => .error .notFound
  else .error .invalidInput

/-- The initial application state used by the `use_profile` scenarios:
one stored SSH profile `s` and an empty project mapping. -/
def st0 : AppState := ⟨[(['s'], profSSHKey)], [], repo0⟩

/-- A state whose mapping binds `w` to the deleted profile id `d`. -/
def stDangling : AppState := ⟨[(['s'], profSSHKey)], [(['w'], ['d'])], repo0⟩

example :
    parse_remote ("git@github.com:acme/app.git".toList) =
      some ("github.com".toList, "acme".toList, "app".toList) := by decide

example :
    parse_remote ("ssh://git@github.com/acme/app.git".toList) =
      some ("github.com".toList, "acme".toList, "app".toList) := by decide

example :
    parse_remote ("https://github.com/acme/app.git".toList) =
      some ("github.com".toList, "acme".toList, "app".toList) := by decide

example :
    to_ssh "github.com".toList "acme".toList "app".toList =
      "git@github.com:acme/app.git".toList := by decide

example :
    to_https "github.com".toList "acme".toList "app".toList =
      "https://github.com/acme/app.git".toList := by decide

/-- Dropping a list from the front of itself-plus-tail succeeds. -/
theorem dropPfx?_self_append (p t : List Char) : dropPfx? p (p ++ t) = some t := by
  induction p with
  | nil => rfl
  | cons c cs ih => simp [dropPfx?, ih]

/-- A list is a `hasPfx` of itself-plus-tail. -/
theorem hasPfx_self_append (p t : List Char) : hasPfx p (p ++ t) = true := by
  induction p with
  | nil => rfl
  | cons c cs ih => simp [hasPfx, ih]

/-- Splitting at the first separator, when the left part avoids it. -/
theorem splitFirst_append {sep : Char} {a : List Char} (b : List Char)
    (h : sep ∉ a) : splitFirst sep (a ++ sep :: b) = some (a, b) := by
  induction a with
  | nil => simp [splitFirst]
  | cons c cs ih =>
    have hc : ¬(c = sep) := by
      intro e
      exact h (by simp [e])
    have ih' := ih (fun hm => h (List.mem_cons_of_mem c hm))
    simp [splitFirst, hc, ih']

/-- A string ending in `".git"` via an explicit append. -/
theorem endsWith_dotgit_append (r : List Char) :
    endsWith dotgit (r ++ dotgit) = true := by
  unfold endsWith
  rw [List.reverse_append]
  exact hasPfx_self_append _ _

/-- The fueled trimmer is the identity on strings not ending in `".git"`. -/
theorem trimEndDotGitFuel_of_false {s : List Char}
    (h : endsWith dotgit s = false) :
    ∀ n, trimEndDotGitFuel n s = s := by
  intro n
  cases n <;> simp [trimEndDotGitFuel, h]

/-- Taking exactly the length of the left part of an append returns it. -/
theorem take_len_append (a b : List Char) : (a ++ b).take a.length = a := by
  induction a with
  | nil => simp
  | cons x xs ih => simp [ih]

/-- Trimming `".git"` from `r ++ ".git"` yields `r` when `r` itself does
not end in `".git"`. -/
theorem trimEndDotGit_append {r : List Char}
    (h : endsWith dotgit r = false) : trimEndDotGit (r ++ dotgit) = r := by
  unfold trimEndDotGit
  have hl : (r ++ dotgit).length = r.length + 4 := by simp [dotgit]
  rw [hl]
  show trimEndDotGitFuel (r.length + 4) (r ++ dotgit) = r
  rw [trimEndDotGitFuel, endsWith_dotgit_append]
  have ht : (r ++ dotgit).take ((r ++ dotgit).length - 4) = r := by
    rw [hl]
    have : r.length + 4 - 4 = r.length := by omega
    rw [this]
    exact take_len_append r dotgit
  simp only [if_pos rfl, ht]
  exact trimEndDotGitFuel_of_false h _

/-- `dropWhile` keeps a list whose head fails the test. -/
theorem dropWhile_cons_false {p : Char → Bool} {c : Char} (l : List Char)
    (hc : p c = false) : (c :: l).dropWhile p = c :: l := by
  simp [List.dropWhile_cons, hc]

/-- Trimming from the right keeps a list whose last element fails the test. -/
theorem revTrim_eq (p : Char → Bool) (s : List Char) (c : Char)
    (hc : p c = false) :
    ((s ++ [c]).reverse.dropWhile p).reverse = s ++ [c] := by
  rw [List.reverse_append]
  simp [List.dropWhile_cons, hc]

/-- `trimSlashes` is the identity on a string that neither starts nor ends
with a slash. -/
theorem trimSlashes_id (X : List Char) (hd : Char) (tl S : List Char)
    (c : Char) (h1 : X = hd :: tl) (hhd : decide (hd = '/') = false)
    (h2 : X = S ++ [c]) (hc : decide (c = '/') = false) :
    trimSlashes X = X := by
  have e1 : X.dropWhile (fun x => decide (x = '/')) = X := by
    rw [h1]
    exact dropWhile_cons_false tl hhd
  unfold trimSlashes
  rw [e1, h2]
  exact revTrim_eq _ S c hc

/-- `split_path` recovers owner and repo from the canonical path segment. -/
theorem split_path_eq (host : List Char) {o r : List Char} (ho : o ≠ [])
    (hos : '/' ∉ o) (hrg : endsWith dotgit r = false) :
    split_path host (o ++ '/' :: (r ++ dotgit)) = some (host, o, r) := by
  obtain ⟨oc, os, rfl⟩ := List.exists_cons_of_ne_nil ho
  have hoc : decide (oc = '/') = false := by
    simp only [decide_eq_false_iff_not]
    intro e
    exact hos (by simp [e])
  have hX1 : (oc :: os) ++ '/' :: (r ++ dotgit)
      = oc :: (os ++ '/' :: (r ++ dotgit)) := by simp
  have hX2 : (oc :: os) ++ '/' :: (r ++ dotgit)
      = ((oc :: os) ++ '/' :: (r ++ ['.', 'g', 'i'])) ++ ['t'] := by
    simp [dotgit]
  unfold split_path
  rw [trimSlashes_id _ _ _ _ _ hX1 hoc hX2 (by decide)]
  rw [splitFirst_append (r ++ dotgit) hos]
  simp [trimEndDotGit_append hrg]

/-- `parse_remote` on a URL with the literal `"git@"` in front reduces to
the shorthand branch. -/
theorem parse_gitat_eq (X : List Char) :
    parse_remote (gitAtPfx ++ X) =
      (match splitFirst ':' X with
       | some (host, path) => split_path host path
       | none => none) := by
  unfold parse_remote
  rw [dropPfx?_self_append]

/-- `"git@"` is not in front of an `"https://"` URL. -/
theorem dropPfx?_gitat_https (X : List Char) :
    dropPfx? gitAtPfx (httpsPfx ++ X) = none := by
  simp [gitAtPfx, httpsPfx, dropPfx?]

/-- `"ssh://"` is not in front of an `"https://"` URL. -/
theorem dropPfx?_ssh_https (X : List Char) :
    dropPfx? sshPfx (httpsPfx ++ X) = none := by
  simp [sshPfx, httpsPfx, dropPfx?]

/-- `parse_remote` on a URL with the literal `"https://"` in front reduces
to the HTTPS branch. -/
theorem parse_https_eq (X : List Char) :
    parse_remote (httpsPfx ++ X) =
      (match splitFirst '/' X with
       | some (host, path) => split_path host path
       | none => none) := by
  unfold parse_remote
  rw [dropPfx?_gitat_https, dropPfx?_ssh_https, dropPfx?_self_append]

/-- Claim C1 (amended): parsing the output of either formatter round-trips
to the same `(host, owner, repo)` triple for non-empty components, provided
the host contains no `':'` or `'/'`, the owner contains no `'/'`, and the
repo does not itself end in `".git"`. -/
theorem c1_parse_format_roundtrip (h o r : List Char)
    (hh : h ≠ []) (ho : o ≠ []) (hr : r ≠ [])
    (hhc : ':' ∉ h) (hhs : '/' ∉ h) (hos : '/' ∉ o)
    (hrg : endsWith dotgit r = false) :
    parse_remote (to_ssh h o r) = some (h, o, r) ∧
    parse_remote (to_https h o r) = some (h, o, r) := by
  constructor
  · have e : to_ssh h o r
        = gitAtPfx ++ (h ++ ':' :: (o ++ '/' :: (r ++ dotgit))) := by
      simp [to_ssh]
    rw [e, parse_gitat_eq, splitFirst_append _ hhc]
    exact split_path_eq h ho hos hrg
  · have e : to_https h o r
        = httpsPfx ++ (h ++ '/' :: (o ++ '/' :: (r ++ dotgit))) := by
      simp [to_https]
    rw [e, parse_https_eq, splitFirst_append _ hhs]
    exact split_path_eq h ho hos hrg

/-- Claim C1 counterexample: for the non-empty triple
`("a", "b", "c.git")` the SSH round-trip does not return the same triple
(the repo comes back as `"c"`), so the unrestricted claim fails. -/
theorem c1_counterexample :
    parse_remote (to_ssh ['a'] ['b'] ['c', '.', 'g', 'i', 't'])
      ≠ some (['a'], ['b'], ['c', '.', 'g', 'i', 't']) := by decide

/-- Claim C1 witness: the amended round-trip at the concrete triple
`("a", "b", "c")`. -/
theorem c1_witness :
    parse_remote (to_ssh ['a'] ['b'] ['c']) = some (['a'], ['b'], ['c']) ∧
    parse_remote (to_https ['a'] ['b'] ['c']) = some (['a'], ['b'], ['c']) :=
  c1_parse_format_roundtrip ['a'] ['b'] ['c'] (by decide) (by decide)
    (by decide) (by decide) (by decide) (by decide) (by decide)

/-- Restriction of `take` to the `dropLast` of a list, below its length. -/
theorem dropLast_take {α : Type} (l : List α) (k : Nat)
    (hk : k + 1 ≤ l.length) : l.dropLast.take k = l.take k := by
  rw [List.dropLast_eq_take, List.take_take]
  have hmin : min k (l.length - 1) = k := by omega
  rw [hmin]

/-- The walk returns nothing when no ancestor of `cur` (each a
`cur.take k`) holds the `.git` marker. -/
theorem resolveFuel_none (fs : FS) :
    ∀ n cur, cur.length < n →
    (∀ k, k ≤ cur.length → fs.isDir (cur.take k ++ [dotgit]) = false) →
    resolveFuel fs n cur = none := by
  intro n
  induction n with
  | zero =>
    intro cur h _
    exact absurd h (Nat.not_lt_zero _)
  | succ n ih =>
    intro cur hlen hmark
    have hfull : fs.isDir (cur ++ [dotgit]) = false := by
      have h0 := hmark cur.length (Nat.le_refl _)
      rwa [List.take_length] at h0
    cases cur with
    | nil => simp [resolveFuel, hfull]
    | cons a l =>
      rw [resolveFuel, hfull]
      simp only [Bool.false_eq_true, if_false]
      have hlcons : (a :: l).length = l.length + 1 := rfl
      apply ih
      · have hdl : (a :: l).dropLast.length = l.length := by simp
        rw [hdl]
        omega
      · intro k hk
        have hdl : (a :: l).dropLast.length = l.length := by simp
        rw [hdl] at hk
        rw [dropLast_take _ k (by omega)]
        exact hmark k (by omega)

/-- The walk returns the name of the first (deepest) ancestor holding the
`.git` marker. -/
theorem resolveFuel_first (fs : FS) :
    ∀ n cur j, cur.length < n → j ≤ cur.length →
    fs.isDir (cur.take j ++ [dotgit]) = true →
    (∀ k, j < k → k ≤ cur.length → fs.isDir (cur.take k ++ [dotgit]) = false) →
    resolveFuel fs n cur = (cur.take j).getLast? := by
  intro n
  induction n with
  | zero =>
    intro cur j h _ _ _
    exact absurd h (Nat.not_lt_zero _)
  | succ n ih =>
    intro cur j hlen hj hmark hnone
    by_cases heq : j = cur.length
    · have htk : cur.take j = cur := by rw [heq, List.take_length]
      rw [htk] at hmark ⊢
      simp [resolveFuel, hmark]
    · have hjlt : j < cur.length := Nat.lt_of_le_of_ne hj heq
      have hfull : fs.isDir (cur ++ [dotgit]) = false := by
        have h0 := hnone cur.length hjlt (Nat.le_refl _)
        rwa [List.take_length] at h0
      cases cur with
      | nil => exact absurd hjlt (Nat.not_lt_zero _)
      | cons a l =>
        rw [resolveFuel, hfull]
        simp only [Bool.false_eq_true, if_false]
        have hlcons : (a :: l).length = l.length + 1 := rfl
        have hdl : (a :: l).dropLast.length = l.length := by simp
        have htk : (a :: l).dropLast.take j = (a :: l).take j :=
          dropLast_take _ j (by omega)
        rw [← htk]
        apply ih
        · rw [hdl]; omega
        · rw [hdl]; omega
        · rwa [htk]
        · intro k hk1 hk2
          rw [hdl] at hk2
          rw [dropLast_take _ k (by omega)]
          exact hnone k hk1 (by omega)

/-- Claim C6 (amended): project resolution walks upward from the start
directory (the path's parent when the path is a file); with no marked
ancestor it fails with an error of kind `Other` (not `NotFound`), and with
a deepest marked ancestor it returns that ancestor's own directory name. -/
theorem c6_resolution (fs : FS) (start : List (List Char)) :
    ((∀ k, k ≤ (startDir fs start).length →
        fs.isDir ((startDir fs start).take k ++ [dotgit]) = false) →
      get_repo_name fs start = .error .other) ∧
    (∀ j, j ≤ (startDir fs start).length → 0 < j →
      fs.isDir ((startDir fs start).take j ++ [dotgit]) = true →
      (∀ k, j < k → k ≤ (startDir fs start).length →
        fs.isDir ((startDir fs start).take k ++ [dotgit]) = false) →
      ∃ name, ((startDir fs start).take j).getLast? = some name ∧
        get_repo_name fs start = .ok name) := by
  constructor
  · intro hmark
    unfold get_repo_name resolve_git_repo_name
    rw [resolveFuel_none fs _ _ (Nat.lt_succ_self _) hmark]
  · intro j hj hj0 hmark hnone
    have hres := resolveFuel_first fs ((startDir fs start).length + 1)
      (startDir fs start) j (Nat.lt_succ_self _) hj hmark hnone
    have hne : (startDir fs start).take j ≠ [] := by
      have hlt : ((startDir fs start).take j).length = j := by
        rw [List.length_take]
        omega
      intro hcon
      rw [hcon] at hlt
      simp at hlt
      omega
    cases hL : ((startDir fs start).take j).getLast? with
    | none => exact absurd (List.getLast?_eq_none_iff.mp hL) hne
    | some name =>
      refine ⟨name, rfl, ?_⟩
      unfold get_repo_name resolve_git_repo_name
      rw [hres, hL]

/-- Claim C6 counterexample: on a filesystem with no marker anywhere,
resolution fails with kind `Other`, not `NotFound` as the claim states. -/
theorem c6_counterexample :
    get_repo_name fsNone [['a']] = Except.error ErrKind.other ∧
    ErrKind.other ≠ ErrKind.notFound := ⟨rfl, by decide⟩

/-- Claim C6 witness: resolving from `p/q` with the marker at `p/q/.git`
yields the directory name `q`. -/
theorem c6_witness :
    ∃ name, ((startDir fsC6 [['p'], ['q']]).take 2).getLast? = some name ∧
      get_repo_name fsC6 [['p'], ['q']] = Except.ok name :=
  (c6_resolution fsC6 [['p'], ['q']]).2 2 (by decide) (by decide) (by decide)
    (by
      intro k hk1 hk2
      have h2 : (startDir fsC6 [['p'], ['q']]).length = 2 := by decide
      rw [h2] at hk2
      exact absurd hk1 (by omega))

/-- Claim C7 (amended): every input whose normalized form names none of
the three auth modes is rejected with an error of kind `InvalidInput`
(not `InvalidData` as the claim states). -/
theorem c7_from_str_invalid (s : List Char)
    (h1 : lowerStr (rustTrim s) ≠ ['n', 'o', 'n', 'e'])
    (h2 : lowerStr (rustTrim s) ≠ ['s', 's', 'h'])
    (h3 : lowerStr (rustTrim s) ≠ ['g', 'h']) :
    auth_type_from_str s = .error .invalidInput := by
  unfold auth_type_from_str
  simp [h1, h2, h3]

/-- Claim C7 counterexample: the input `"xyz"` names no auth mode, and the
failure kind is `InvalidInput`, which differs from `InvalidData`. -/
theorem c7_counterexample :
    auth_type_from_str ['x', 'y', 'z'] = Except.error ErrKind.invalidInput ∧
    ErrKind.invalidInput ≠ ErrKind.invalidData := ⟨rfl, by decide⟩

/-- Claim C7 witness: the amended statement at the concrete input `"q"`. -/
theorem c7_witness :
    auth_type_from_str ['q'] = Except.error ErrKind.invalidInput :=
  c7_from_str_invalid ['q'] (by decide) (by decide) (by decide)

/-- Looking up a key just inserted returns the inserted value. -/
theorem lookupK_insertK_self {α : Type} (k : List Char) (v : α)
    (m : List (List Char × α)) : lookupK k (insertK k v m) = some v := by
  induction m with
  | nil => simp [insertK, lookupK]
  | cons kv rest ih =>
    obtain ⟨k', v'⟩ := kv
    by_cases h : k' = k
    · simp [insertK, lookupK, h]
    · simp [insertK, lookupK, h, ih]

/-- Claim C4: `update_profile` fails `NotFound` on an absent id; on a
present id it fails `InvalidData` exactly when the stored auth mode
disallows a field set by the incoming profile, and otherwise replaces the
entry (auth-mode changes included); rejections return the error without
producing a new map. -/
theorem c4_update_profile (profile_name : List Char) (profile : Profile)
    (profiles : List (List Char × Profile)) :
    (lookupK profile_name profiles = Option.none →
      update_profile profile_name profile profiles = .error .notFound) ∧
    (∀ stored, lookupK profile_name profiles = some stored →
      (disallowedFor stored.auth_type profile = true →
        update_profile profile_name profile profiles = .error .invalidData) ∧
      (disallowedFor stored.auth_type profile = false →
        update_profile profile_name profile profiles =
          .ok (insertK profile_name profile profiles))) := by
  constructor
  · intro h
    unfold update_profile
    rw [h]
  · intro stored hst
    unfold update_profile
    rw [hst]
    cases hAT : stored.auth_type <;>
      constructor <;>
        intro hd <;>
          simp only [disallowedFor, hAT] at hd <;>
            simp [hAT, hd]

/-- Claim C4 witness: with a stored SSH profile, an incoming update that
sets `hostname` is rejected `InvalidData`; updating an absent id fails
`NotFound`. -/
theorem c4_witness :
    update_profile ['p'] profUpdBadHost [(['p'], profStoredSSH)] =
      .error .invalidData ∧
    update_profile ['q'] profUpdBadHost [] = .error .notFound :=
  ⟨((c4_update_profile ['p'] profUpdBadHost
      [(['p'], profStoredSSH)]).2 profStoredSSH (by decide)).1 (by decide),
   (c4_update_profile ['q'] profUpdBadHost []).1 (by decide)⟩

/-- Claim C9: `add_profile` on a fresh id inserts the profile, and a
subsequent `get` (lookup) returns a profile identical to the one added;
on a present id it fails `AlreadyExists` without producing a new map. -/
theorem c9_add_profile (profile_name : List Char) (profile : Profile)
    (profiles : List (List Char × Profile)) :
    (lookupK profile_name profiles = Option.none →
      add_profile profile_name profile profiles =
        .ok (insertK profile_name profile profiles) ∧
      lookupK profile_name (insertK profile_name profile profiles) =
        some profile) ∧
    (∀ q, lookupK profile_name profiles = some q →
      add_profile profile_name profile profiles = .error .alreadyExists) := by
  constructor
  · intro h
    refine ⟨?_, lookupK_insertK_self _ _ _⟩
    unfold add_profile
    rw [h]
  · intro q hq
    unfold add_profile
    rw [hq]

/-- Claim C9 witness: adding `p1` to an empty store then looking it up
returns the same profile; a second add of `p1` fails `AlreadyExists`. -/
theorem c9_witness :
    (add_profile ['p', '1'] profGH [] =
        .ok (insertK ['p', '1'] profGH []) ∧
      lookupK ['p', '1'] (insertK ['p', '1'] profGH []) = some profGH) ∧
    add_profile ['p', '1'] profGH [(['p', '1'], profGH)] =
      .error .alreadyExists :=
  ⟨(c9_add_profile ['p', '1'] profGH []).1 (by decide),
   (c9_add_profile ['p', '1'] profGH [(['p', '1'], profGH)]).2 profGH
     (by decide)⟩

/-- Characterization of the SSH branch when its fallible writes succeed:
the override follows `ssh_key_path`, only a parsing HTTPS remote is
rewritten, and the credential keys are cleared. -/
theorem apply_ssh_ok (env : GitEnv) (p : Profile)
    (remote : Option (List Char)) (s : RepoState)
    (h4 : env.ensure_ssh_fails = false) (h5 : env.set_remote_fails = false) :
    apply_ssh env p remote s =
      ({ s with
          ssh_command :=
            match p.ssh_key_path with
            | some key => some (ssh_command_value key)
            | Option.none => s.ssh_command
          remote_origin :=
            match remote with
            | some url =>
              match parse_remote url with
              | some (host, owner, repo_name) =>
                if hasPfx httpsPfx url then some (to_ssh host owner repo_name)
                else s.remote_origin
              | Option.none => s.remote_origin
            | Option.none => s.remote_origin
          cred_helper := Option.none
          use_http_path := Option.none }, Option.none) := by
  cases hk : p.ssh_key_path with
  | none =>
    cases remote with
    | none => simp [apply_ssh, ssh_after_key, ssh_remote_step, hk]
    | some url =>
      cases hp : parse_remote url with
      | none => simp [apply_ssh, ssh_after_key, ssh_remote_step, hk, hp]
      | some t =>
        obtain ⟨host, owner, repo_name⟩ := t
        cases hhp : hasPfx httpsPfx url <;>
          simp [apply_ssh, ssh_after_key, ssh_remote_step, hk, hp, hhp, h5]
  | some key =>
    cases remote with
    | none => simp [apply_ssh, ssh_after_key, ssh_remote_step, hk, h4]
    | some url =>
      cases hp : parse_remote url with
      | none => simp [apply_ssh, ssh_after_key, ssh_remote_step, hk, hp, h4]
      | some t =>
        obtain ⟨host, owner, repo_name⟩ := t
        cases hhp : hasPfx httpsPfx url <;>
          simp [apply_ssh, ssh_after_key, ssh_remote_step, hk, hp, hhp, h4, h5]

/-- Claim C5: applying an SSH profile (all writes succeeding) sets the
self-contained SSH-command override exactly when `ssh_key_path` is
present, rewrites a parsing HTTPS remote to the SSH shorthand of the same
triple while leaving SSH-form or unparsable remotes unchanged, and clears
the credential helper and the per-path flag. -/
theorem c5_apply_ssh_profile (fs : FS) (env : GitEnv) (p : Profile)
    (path : List (List Char)) (s : RepoState)
    (hrepo : fs.isDir (path ++ [dotgit]) = true)
    (h1 : env.set_name_fails = false) (h2 : env.set_email_fails = false)
    (h3 : env.get_remote_fails = false) (h4 : env.ensure_ssh_fails = false)
    (h5 : env.set_remote_fails = false)
    (hA : p.auth_type = AuthType.SSH) :
    apply_profile_to_repo fs env p path s =
      ({ s with
          user_name := some p.name
          user_email := some p.email
          ssh_command :=
            match p.ssh_key_path with
            | some key => some (ssh_command_value key)
            | Option.none => s.ssh_command
          remote_origin :=
            match s.remote_origin with
            | some url =>
              match parse_remote url with
              | some (host, owner, repo_name) =>
                if hasPfx httpsPfx url then some (to_ssh host owner repo_name)
                else some url
              | Option.none => some url
            | Option.none => Option.none
          cred_helper := Option.none
          use_http_path := Option.none }, Option.none) := by
  have e : apply_profile_to_repo fs env p path s =
      apply_ssh env p s.remote_origin
        { { s with user_name := some p.name } with
            user_email := some p.email } := by
    simp [apply_profile_to_repo, hrepo, h1, h2, h3, hA]
  rw [e, apply_ssh_ok env p _ _ h4 h5]
  simp
  cases hrem : s.remote_origin with
  | none => rfl
  | some url =>
    cases hp : parse_remote url with
    | none => rfl
    | some t =>
      obtain ⟨host, owner, repo_name⟩ := t
      cases hhp : hasPfx httpsPfx url <;> simp [hhp]

/-- Claim C8: applying a `None` profile sets the identity, clears the
SSH-command override and both credential keys, and leaves the remote URL
field exactly as it was. -/
theorem c8_apply_none_profile (fs : FS) (env : GitEnv) (p : Profile)
    (path : List (List Char)) (s : RepoState)
    (hrepo : fs.isDir (path ++ [dotgit]) = true)
    (h1 : env.set_name_fails = false) (h2 : env.set_email_fails = false)
    (h3 : env.get_remote_fails = false)
    (hA : p.auth_type = AuthType.none) :
    apply_profile_to_repo fs env p path s =
      ({ s with
          user_name := some p.name
          user_email := some p.email
          ssh_command := Option.none
          cred_helper := Option.none
          use_http_path := Option.none }, Option.none) := by
  simp [apply_profile_to_repo, hrepo, h1, h2, h3, hA]

/-- Claim C2 (amended): when reading the remote URL fails, the invocation
fails, and no write beyond the identity has happened: the remote, the
SSH-command override, and both credential keys are untouched. -/
theorem c2_remote_read_failure (fs : FS) (env : GitEnv) (p : Profile)
    (path : List (List Char)) (s : RepoState)
    (hg : env.get_remote_fails = true) :
    ((apply_profile_to_repo fs env p path s).2.isSome = true) ∧
    ((apply_profile_to_repo fs env p path s).1.remote_origin =
      s.remote_origin) ∧
    ((apply_profile_to_repo fs env p path s).1.ssh_command =
      s.ssh_command) ∧
    ((apply_profile_to_repo fs env p path s).1.cred_helper =
      s.cred_helper) ∧
    ((apply_profile_to_repo fs env p path s).1.use_http_path =
      s.use_http_path) := by
  cases hrepo : fs.isDir (path ++ [dotgit]) <;>
    cases hn : env.set_name_fails <;>
      cases he : env.set_email_fails <;>
        simp [apply_profile_to_repo, hg, hrepo, hn, he]

/-- Claim C2 counterexample: with the remote-URL read failing, the
invocation fails, but the repository configuration is no longer the
initial one — the identity was already written before the failing read. -/
theorem c2_counterexample :
    ((apply_profile_to_repo fsProj envRemoteFail profSSHKey [['w']]
        repo0).2.isSome = true) ∧
    (apply_profile_to_repo fsProj envRemoteFail profSSHKey [['w']]
        repo0).1 ≠ repo0 := by decide

/-- Claim C2 witness: the amended statement at a concrete input — the
failing read aborts the invocation with remote, SSH override, and
credential keys untouched. -/
theorem c2_witness :
    ((apply_profile_to_repo fsProj envRemoteFail profSSHKey [['w']]
        repo0).2.isSome = true) ∧
    ((apply_profile_to_repo fsProj envRemoteFail profSSHKey [['w']]
        repo0).1.remote_origin = repo0.remote_origin) ∧
    ((apply_profile_to_repo fsProj envRemoteFail profSSHKey [['w']]
        repo0).1.ssh_command = repo0.ssh_command) ∧
    ((apply_profile_to_repo fsProj envRemoteFail profSSHKey [['w']]
        repo0).1.cred_helper = repo0.cred_helper) ∧
    ((apply_profile_to_repo fsProj envRemoteFail profSSHKey [['w']]
        repo0).1.use_http_path = repo0.use_http_path) :=
  c2_remote_read_failure fsProj envRemoteFail profSSHKey [['w']] repo0 rfl

/-- Claim C5 witness: applying the SSH profile to a repository with an
HTTPS origin rewrites it to the SSH shorthand, pins the key in the
override, and clears both credential keys. -/
theorem c5_witness :
    apply_profile_to_repo fsProj envOk profSSHKey [['w']] repoHttps =
      ({ repoHttps with
          user_name := some profSSHKey.name
          user_email := some profSSHKey.email
          ssh_command := some (ssh_command_value "~/.ssh/id_rsa".toList)
          remote_origin := some "git@github.com:acme/app.git".toList
          cred_helper := Option.none
          use_http_path := Option.none }, Option.none) := by
  rw [c5_apply_ssh_profile fsProj envOk profSSHKey [['w']] repoHttps
    (by decide) rfl rfl rfl rfl rfl rfl]
  decide

/-- Claim C8 witness: applying the `None` profile clears the override and
both credential keys and leaves the HTTPS remote untouched. -/
theorem c8_witness :
    apply_profile_to_repo fsProj envOk profNone [['w']] repoHttps =
      ({ repoHttps with
          user_name := some profNone.name
          user_email := some profNone.email
          ssh_command := Option.none
          cred_helper := Option.none
          use_http_path := Option.none }, Option.none) :=
  c8_apply_none_profile fsProj envOk profNone [['w']] repoHttps
    (by decide) rfl rfl rfl rfl

/-- Claim C3 (amended): once the profile is found and the project
resolves, `use_profile` records the binding in the project mapping, and
it does so before the delta is applied — the binding is present even when
applying the configuration fails. -/
theorem c3_use_profile_mapping (fs : FS) (env : GitEnv)
    (profile_name : List Char) (path : List (List Char)) (st : AppState)
    (profile : Profile) (repo_name : List Char)
    (hp : lookupK profile_name st.profiles = some profile)
    (hex : project_new_ok fs path = true)
    (hres : get_repo_name fs path = .ok repo_name) :
    (use_profile fs env profile_name path st).1.project_profiles =
      insertK repo_name profile_name st.project_profiles := by
  simp [use_profile, hp, hex, hres]

/-- Claim C3 counterexample: with the first repository write failing, the
invocation fails and the repository configuration is untouched — yet the
project mapping already records the binding, so the mapping is written
before (not after) the delta is applied. -/
theorem c3_counterexample :
    ((use_profile fsProj envNameFail ['s'] [['w']] st0).2.isSome = true) ∧
    ((use_profile fsProj envNameFail ['s'] [['w']] st0).1.repo = st0.repo) ∧
    ((use_profile fsProj envNameFail ['s'] [['w']] st0).1.project_profiles =
      [(['w'], ['s'])]) := by decide

/-- Claim C3 witness: the amended statement at a concrete input (with the
delta application failing at its first write). -/
theorem c3_witness :
    (use_profile fsProj envNameFail ['s'] [['w']] st0).1.project_profiles =
      insertK ['w'] ['s'] st0.project_profiles :=
  c3_use_profile_mapping fsProj envNameFail ['s'] [['w']] st0 profSSHKey
    ['w'] rfl rfl rfl

/-- Claim C10: a dangling binding — the mapping names a profile id absent
from the profiles document — makes `get_project_profile` fail with
`NotFound`. -/
theorem c10_dangling_binding (fs : FS) (path : List (List Char))
    (st : AppState) (repo_name pid : List Char)
    (hex : project_new_ok fs path = true)
    (hres : get_repo_name fs path = .ok repo_name)
    (hbind : lookupK repo_name st.project_profiles = some pid)
    (hmiss : lookupK pid st.profiles = Option.none) :
    get_project_profile fs path st = .error .notFound := by
  simp [get_project_profile, hex, hres, read_project_profile, hbind, hmiss]

/-- Claim C10 witness: the dangling binding `w -> d` yields `NotFound`. -/
theorem c10_witness :
    get_project_profile fsProj [['w']] stDangling = .error .notFound :=
  c10_dangling_binding fsProj [['w']] stDangling ['w'] ['d'] rfl rfl rfl rfl
